import Mathlib

/-!
Shallow embedding of the parse-n-upload tabular-format decoders
(`src/utils/fileParsers.ts` — the enhanced parser family: `parseCSV`,
`parseDissolutionData`, `parseParticleData`, `parseMastersizerData`,
`parseAlternativeMastersizerFormat`, `detectDelimiter`, and the label helpers
`extractMethodShort` / `extractTrial` / `extractTrialWithoutLetter` — and
`src/services/ParticleParserService.ts` — `parseCAMFile`).

Modelling conventions:
* JavaScript numbers are modelled as `Option ℚ` (`JSNum`): `some q` is a
  finite value (floats idealised as rationals), `none` models a non-finite
  result (`NaN`, or an infinity arising from division by zero).  JS `isNaN`
  checks are modelled as `Option.isNone`.
* Reading past the end of a row (`row[i]` giving `undefined`) is modelled as
  the empty string: `parseFloat` maps both to `NaN` and both are falsy.
* JS `String.prototype.trim` is modelled as stripping space, tab, CR and LF
  from both ends; exotic Unicode whitespace is not considered, and
  `toLowerCase` is modelled on ASCII letters (all data of interest is ASCII).
* JS `parseFloat` of the literals `Infinity` / `-Infinity` is not modelled
  (no input considered here contains them).
* String primitives are re-implemented by structural recursion on `List Char`
  so that every parser evaluates inside the kernel.
-/

deriving instance DecidableEq for Except

namespace ParseNUpload

/-- A JS number: `some q` is a finite value, `none` a non-finite one. -/
abbrev JSNum := Option ℚ

/-- JS subtraction; a non-finite operand propagates. -/
def jsSub : JSNum → JSNum → JSNum
  | some a, some b => some (a - b)
  | _, _ => none

/-- JS division; a non-finite operand propagates and dividing by zero is
    non-finite (JS `Infinity`/`NaN`, conflated here). -/
def jsDiv : JSNum → JSNum → JSNum
  | some a, some b => if b = 0 then none else some (a / b)
  | _, _ => none

/-- Whitespace stripped by JS `trim` and skipped by `parseFloat`. -/
def jsWsChar (c : Char) : Bool := c = ' ' || c = '\t' || c = '\n' || c = '\r'

/-- JS `s.trim()`. -/
def jsTrim (s : String) : String :=
  String.mk (((s.toList.dropWhile jsWsChar).reverse.dropWhile jsWsChar).reverse)

/-- ASCII lower-casing of one character (JS `toLowerCase` on the data here). -/
def lowerChar (c : Char) : Char :=
  if 'A' ≤ c && c ≤ 'Z' then Char.ofNat (c.toNat + 32) else c

/-- JS `s.toLowerCase()` (ASCII). -/
def jsLower (s : String) : String := String.mk (s.toList.map lowerChar)

/-- Does `pat` occur at the head of the list? -/
def headMatchesPat : List Char → List Char → Bool
  | _, [] => true
  | [], _ :: _ => false
  | c :: cs, p :: ps => c = p && headMatchesPat cs ps

/-- Does `pat` occur as a contiguous sublist? -/
def containsSub (pat : List Char) : List Char → Bool
  | [] => pat.isEmpty
  | c :: t => headMatchesPat (c :: t) pat || containsSub pat t

/-- JS `a.includes(b)`: `b` occurs as a contiguous substring of `a`. -/
def jsIncludes (a b : String) : Bool := containsSub b.toList a.toList

/-- Split on a single separator character (JS `s.split(sep)`). -/
def splitCharAux (sep : Char) : List Char → List Char → List (List Char)
  | [], acc => [acc.reverse]
  | c :: cs, acc =>
    if c = sep then acc.reverse :: splitCharAux sep cs []
    else splitCharAux sep cs (c :: acc)

/-- JS `s.split(sep)` for a one-character separator. -/
def jsSplit (s : String) (sep : Char) : List String :=
  (splitCharAux sep s.toList []).map String.mk

/-- JS `list.join(sep)`. -/
def joinAux (sep : List Char) : List (List Char) → List Char
  | [] => []
  | [x] => x
  | x :: xs => x ++ sep ++ joinAux sep xs

/-- JS `list.join(sep)`. -/
def jsJoin (sep : String) (l : List String) : String :=
  String.mk (joinAux sep.toList (l.map String.toList))

/-- Auxiliary scan for `jsReplaceFirst`. -/
def replaceFirstAux (pat rep : List Char) : List Char → List Char
  | [] => []
  | c :: cs =>
    if headMatchesPat (c :: cs) pat then rep ++ (c :: cs).drop pat.length
    else c :: replaceFirstAux pat rep cs

/-- JS `s.replace(pat, rep)` with a plain-string pattern: only the first
    occurrence of `pat` is replaced. -/
def jsReplaceFirst (s pat rep : String) : String :=
  if pat.toList.isEmpty then rep ++ s
  else String.mk (replaceFirstAux pat.toList rep.toList s.toList)

/-- Decimal value of a digit list (most significant first). -/
def digitsToNat : List Char → Nat → Nat
  | [], acc => acc
  | c :: cs, acc => digitsToNat cs (acc * 10 + (c.toNat - 48))

/-- Value contributed by the digits after the decimal point. -/
def fracValue (cs : List Char) : ℚ := (digitsToNat cs 0 : ℚ) / (10 ^ cs.length : ℚ)

/-- Exponent suffix handling for `jsParseFloat`. -/
def applyExponent (mantissa : ℚ) : List Char → JSNum
  | 'e' :: '-' :: t =>
    let ds := t.takeWhile Char.isDigit
    if ds.isEmpty then some mantissa else some (mantissa / 10 ^ digitsToNat ds 0)
  | 'E' :: '-' :: t =>
    let ds := t.takeWhile Char.isDigit
    if ds.isEmpty then some mantissa else some (mantissa / 10 ^ digitsToNat ds 0)
  | 'e' :: '+' :: t =>
    let ds := t.takeWhile Char.isDigit
    if ds.isEmpty then some mantissa else some (mantissa * 10 ^ digitsToNat ds 0)
  | 'E' :: '+' :: t =>
    let ds := t.takeWhile Char.isDigit
    if ds.isEmpty then some mantissa else some (mantissa * 10 ^ digitsToNat ds 0)
  | 'e' :: t =>
    let ds := t.takeWhile Char.isDigit
    if ds.isEmpty then some mantissa else some (mantissa * 10 ^ digitsToNat ds 0)
  | 'E' :: t =>
    let ds := t.takeWhile Char.isDigit
    if ds.isEmpty then some mantissa else some (mantissa * 10 ^ digitsToNat ds 0)
  | _ => some mantissa

/-- JS `parseFloat`: skip leading whitespace, optional sign, then the longest
    prefix matching `digits [. digits] [e|E [sign] digits]`; no digit at all
    yields `NaN` (`none`). -/
def jsParseFloat (s : String) : JSNum :=
  let cs0 := s.toList.dropWhile jsWsChar
  let sgn : ℚ := match cs0 with
    | '-' :: _ => -1
    | _ => 1
  let cs := match cs0 with
    | '-' :: t => t
    | '+' :: t => t
    | t => t
  let ip := cs.takeWhile Char.isDigit
  let cs1 := cs.drop ip.length
  let fp := match cs1 with
    | '.' :: t => t.takeWhile Char.isDigit
    | _ => []
  let cs2 := match cs1 with
    | '.' :: t => t.dropWhile Char.isDigit
    | t => t
  if ip.isEmpty && fp.isEmpty then none
  else applyExponent (sgn * ((digitsToNat ip 0 : ℚ) + fracValue fp)) cs2

/-- `detectDelimiter` (fileParsers.ts): count the occurrences of comma,
    semicolon and tab in the first line and return the delimiter whose count
    is maximal; `counts.indexOf(Math.max(...counts))` makes the earliest
    delimiter in the order comma, semicolon, tab win ties. -/
def detectDelimiter (content : String) : String :=
  let firstLine := (jsSplit content '\n').headD ""
  let delimiters : List Char := [',', ';', '\t']
  let counts := delimiters.map (fun d => firstLine.toList.count d)
  let maxCount := counts.foldl max 0
  let maxIndex := counts.indexOf maxCount
  String.singleton (delimiters.getD maxIndex ',')

/-- A single-quote character (kept out of string literals). -/
def sq : String := String.singleton (Char.ofNat 39)

/-- Structured parse error (the `error` field of `ParseResult`). -/
structure PError where
  message : String
  details : String
  line : Option Nat
  raw : Option String
deriving DecidableEq

/-- `ParseResult<T>`: the success/failure envelope.  The source object has
    separate `success`/`data`/`error` fields but never populates both sides;
    the tagged union captures exactly the values it produces. -/
inductive ParseResult (T : Type) where
  | success (data : List T)
  | failure (error : PError)
deriving DecidableEq

/-- `ParseError` produced from a thrown `Error(msg)`: the catch block sets
    `details` to `error.toString()`, i.e. `"Error: " ++ msg`, and leaves
    `line`/`raw` unset. -/
def errorFrom (msg : String) : PError := ⟨msg, "Error: " ++ msg, none, none⟩

/-- Message `"Missing 'Time Point' column in header"`. -/
def msgMissingTime : String := "Missing " ++ sq ++ "Time Point" ++ sq ++ " column in header"

/-- Message `"No 'Vessel' columns found in header"`. -/
def msgNoVessel : String := "No " ++ sq ++ "Vessel" ++ sq ++ " columns found in header"

/-- `parseCSV` (fileParsers.ts): split into lines on LF, then each line into
    comma-separated cells, trimming every cell. -/
def parseCSV (content : String) : List (List String) :=
  (jsSplit content '\n').map (fun line => (jsSplit line ',').map jsTrim)

/-- Cell access: JS `row[i]`, with out-of-range `undefined` modelled as `""`. -/
def cellAt (row : List String) (i : Nat) : String := row.getD i ""

/-- The shared shape of the simple parsers' row loops: each data row is
    either silently skipped (`none`), aborts the whole parse with a
    positioned error (re-thrown to the top), or yields a record appended in
    order; the first error wins and no partial list survives it. -/
def rowLoop {E A : Type} (dec : Nat → List String → Option (Except E A)) :
    Nat → List (List String) → Except E (List A)
  | _, [] => .ok []
  | i, r :: rs =>
    match dec i r with
    | none => rowLoop dec (i + 1) rs
    | some (.error e) => .error e
    | some (.ok a) =>
      match rowLoop dec (i + 1) rs with
      | .error e => .error e
      | .ok l => .ok (a :: l)

/-- One dissolution record (`DissolutionData` in fileParsers.ts). -/
structure DissolutionData where
  timePoint : ℚ
  vessels : List ℚ
  average : JSNum
deriving DecidableEq

/-- The inner `for (const index of vesselIndices)` of `parseDissolutionData`:
    decode every vessel cell of one row or raise the row error. -/
def dissVessels (header : List String) (i : Nat) (row : List String) :
    List Nat → Except PError (List ℚ)
  | [] => .ok []
  | idx :: idxs =>
    if idx < row.length then
      match jsParseFloat (cellAt row idx) with
      | none => .error ⟨"Invalid vessel value",
          "Row " ++ toString i ++ ", column " ++ cellAt header idx ++
            " has non-numeric value: " ++ cellAt row idx,
          some i, some (jsJoin "," row)⟩
      | some v =>
        match dissVessels header i row idxs with
        | .error e => .error e
        | .ok l => .ok (v :: l)
    else
      .error ⟨"Missing vessel value",
        "Row " ++ toString i ++ " is missing value for " ++ cellAt header idx,
        some i, some (jsJoin "," row)⟩

/-- Decode of one dissolution data row: `none` means the row is skipped
    (at most one cell, or all cells blank). -/
def dissRowDecode (header : List String) (tIdx : Nat) (vIdxs : List Nat)
    (i : Nat) (row : List String) : Option (Except PError DissolutionData) :=
  if row.length ≤ 1 || row.all (· == "") then none
  else some (
    if row.length < vIdxs.length + 1 then
      .error ⟨"Invalid row format",
        "Row " ++ toString i ++ " has " ++ toString row.length ++
          " cells, but expected at least " ++ toString (vIdxs.length + 1),
        some i, some (jsJoin "," row)⟩
    else
      match jsParseFloat (cellAt row tIdx) with
      | none => .error ⟨"Invalid time point value",
          "Row " ++ toString i ++ " has non-numeric time point: " ++ cellAt row tIdx,
          some i, some (jsJoin "," row)⟩
      | some timePoint =>
        match dissVessels header i row vIdxs with
        | .error e => .error e
        | .ok vessels =>
          .ok ⟨timePoint, vessels,
            jsDiv (some (vessels.foldl (· + ·) 0)) (some (vessels.length : ℚ))⟩)

/-- Vessel columns of a dissolution header: indices whose lower-cased cell
    contains `"vessel"`. -/
def vesselIndicesOf (header : List String) : List Nat :=
  header.enum.filterMap
    (fun p => if jsIncludes (jsLower p.2) "vessel" then some p.1 else none)

/-- Body of `parseDissolutionData` over the tokenised rows. -/
def parseDissolutionFromRows (rows : List (List String)) : ParseResult DissolutionData :=
  let header := rows.headD []
  match header.findIdx? (fun col => jsIncludes (jsLower col) "time") with
  | none => .failure (errorFrom msgMissingTime)
  | some timePointIndex =>
    let vesselIndices := vesselIndicesOf header
    if vesselIndices.length = 0 then .failure (errorFrom msgNoVessel)
    else if vesselIndices.length < 6 then
      .failure (errorFrom
        ("Expected 6 vessel columns, but found " ++ toString vesselIndices.length))
    else
      match rowLoop (dissRowDecode header timePointIndex vesselIndices) 1 (rows.drop 1) with
      | .error e => .failure e
      | .ok data => .success data

/-- `parseDissolutionData` (fileParsers.ts): the rows always come from
    `parseCSV`, i.e. comma tokenisation. -/
def parseDissolutionData (content : String) : ParseResult DissolutionData :=
  parseDissolutionFromRows (parseCSV content)

/-- Tokenisation with an arbitrary one-character delimiter: what the simple
    parsers would see had they consulted `detectDelimiter` (they do not —
    `parseCSV` hard-codes the comma). -/
def parseCSVWith (delim : Char) (content : String) : List (List String) :=
  (jsSplit content '\n').map (fun line => (jsSplit line delim).map jsTrim)

/-! ## Label micro-grammar (extractMethodShort / extractTrial /
    extractTrialWithoutLetter, identical in fileParsers.ts and
    ParticleParserService.ts) -/

/-- Characters the JS regex `.` does not match (line terminators). -/
def jsDotChar (c : Char) : Bool :=
  !(c = '\n' || c = '\r' || c.toNat = 8232 || c.toNat = 8233)

/-- `extractMethodShort`: match `/^(M[0-9][;,:]?)(.*)/`; on a match return
    the captured method prefix with one trailing `;`/`,`/`:` stripped and the
    trimmed remainder, otherwise `null` and the label unchanged. -/
def extractMethodShort (value : String) : Option String × String :=
  match value.toList with
  | 'M' :: d :: rest =>
    if d.isDigit then
      match rest with
      | p :: rest2 =>
        if p = ';' || p = ',' || p = ':' then
          (some (String.mk ['M', d]), jsTrim (String.mk (rest2.takeWhile jsDotChar)))
        else
          (some (String.mk ['M', d]), jsTrim (String.mk (rest.takeWhile jsDotChar)))
      | [] => (some (String.mk ['M', d]), "")
    else (none, value)
  | _ => (none, value)

/-- Separator class of `extractTrial`'s regex `/([^, ]+)[, ]?(.*)/`. -/
def trialSep (c : Char) : Bool := c = ',' || c = ' '

/-- `extractTrial`: the regex `/([^, ]+)[, ]?(.*)/` takes the first maximal
    run of non-comma/space characters as the trial (the unanchored search
    skips any leading separators), consumes at most one single following
    comma or space, and the rest (up to a line terminator, then trimmed) is
    the intermediate form; a label with no non-separator character does not
    match and is returned whole with an empty remainder. -/
def extractTrial (label : String) : String × String :=
  match label.toList.dropWhile trialSep with
  | [] => (label, "")
  | c :: cs =>
    let run := (c :: cs).takeWhile (fun x => !trialSep x)
    let rest := (c :: cs).drop run.length
    let rest2 := match rest with
      | _ :: t => t
      | [] => []
    (String.mk run, jsTrim (String.mk (rest2.takeWhile jsDotChar)))

/-- One attempt of `/([A-Z]{3}\d{2}-\d[A-Z]\d{0,2})/i` at the current
    position (trailing digits greedy). -/
def trialPatAt : List Char → Option (List Char)
  | a :: b :: c :: d :: e :: '-' :: f :: g :: rest =>
    if a.isAlpha && b.isAlpha && c.isAlpha && d.isDigit && e.isDigit
        && f.isDigit && g.isAlpha then
      match rest with
      | h1 :: h2 :: _ =>
        if h1.isDigit && h2.isDigit then some [a, b, c, d, e, '-', f, g, h1, h2]
        else if h1.isDigit then some [a, b, c, d, e, '-', f, g, h1]
        else some [a, b, c, d, e, '-', f, g]
      | [h1] =>
        if h1.isDigit then some [a, b, c, d, e, '-', f, g, h1]
        else some [a, b, c, d, e, '-', f, g]
      | [] => some [a, b, c, d, e, '-', f, g]
    else none
  | _ => none

/-- Leftmost search for `trialPatAt`. -/
def trialPatSearch : List Char → Option (List Char)
  | [] => none
  | c :: t =>
    match trialPatAt (c :: t) with
    | some m => some m
    | none => trialPatSearch t

/-- `extractTrialWithoutLetter`: replace the string by the first (leftmost,
    greedy) match of the canonical-batch pattern, if any; otherwise return it
    unchanged. -/
def extractTrialWithoutLetter (s : String) : String :=
  match trialPatSearch s.toList with
  | some m => String.mk m
  | none => s

/-! ## Particle data model (parseParticleData, fileParsers.ts) -/

/-- Canonical fields of the `columnMappings` table of `parseParticleData`. -/
inductive PField where
  | batch | d10 | d50 | d90 | span | surface
  | uniformity | volumeMean | submicron | timestamp
  | methodShort | trial | intermediateForm
deriving DecidableEq

/-- The JS key of a canonical field (used in error messages). -/
def PField.jsName : PField → String
  | .batch => "batch"
  | .d10 => "d10"
  | .d50 => "d50"
  | .d90 => "d90"
  | .span => "span"
  | .surface => "surface"
  | .uniformity => "uniformity"
  | .volumeMean => "volumeMean"
  | .submicron => "submicron"
  | .timestamp => "timestamp"
  | .methodShort => "methodShort"
  | .trial => "trial"
  | .intermediateForm => "intermediateForm"

/-- `columnMappings` (fileParsers.ts): accepted header aliases per field, in
    source order. -/
def particleAliases : PField → List String
  | .batch => ["batch", "sample", "id", "identifier", "sample id", "batch id",
      "batch number", "label", "label_ou_sr", "mra_no"]
  | .d10 => ["d10", "d(0.1)", "d(v,0.1)", "d[v,0.1]", "dv10", "d 10%", "d10%"]
  | .d50 => ["d50", "d(0.5)", "d(v,0.5)", "d[v,0.5]", "dv50", "median", "d 50%", "d50%"]
  | .d90 => ["d90", "d(0.9)", "d(v,0.9)", "d[v,0.9]", "dv90", "d 90%", "d90%"]
  | .span => ["span", "width", "distribution width", "spread"]
  | .surface => ["surface", "specific surface", "specific surface area", "ssa", "surface area"]
  | .uniformity => ["uniformity", "unif", "u"]
  | .volumeMean => ["mean", "volume mean", "mean diameter", "avg", "average", "d[4,3]", "d(4,3)"]
  | .submicron => ["<1μm", "<1um", "submicron", "percent<1um", "%<1μm", "%<1um", "percent < 1um"]
  | .timestamp => ["date", "time", "datetime", "timestamp", "measured on", "date measured"]
  | .methodShort => ["method", "method_short", "test method"]
  | .trial => ["trial", "trial id"]
  | .intermediateForm => ["intermediate", "intermediate_form", "form"]

/-- Alias resolution for one field: try an exact match for each alias in
    order (`findIndex` picking the first matching column), and only if no
    alias matches exactly, try substring containment in alias order. -/
def resolveColumn (header : List String) (names : List String) : Option Nat :=
  match names.findSome? (fun n => header.findIdx? (fun col => col == n)) with
  | some i => some i
  | none => names.findSome? (fun n => header.findIdx? (fun col => jsIncludes col n))

/-- Normalised header of `parseParticleData`: every cell of the first row
    lower-cased and trimmed. -/
def particleHeader (rows : List (List String)) : List String :=
  (rows.headD []).map (fun h => jsTrim (jsLower h))

/-- The `columnIndices` map of `parseParticleData` (`-1` as `none`). -/
def particleCols (header : List String) (f : PField) : Option Nat :=
  resolveColumn header (particleAliases f)

/-- The first required field (`batch`, `d10`, `d50`, `d90`, in the
    `columnMappings` iteration order) that resolves to no column. -/
def firstMissingRequired (header : List String) : Option PField :=
  if particleCols header .batch = none then some .batch
  else if particleCols header .d10 = none then some .d10
  else if particleCols header .d50 = none then some .d50
  else if particleCols header .d90 = none then some .d90
  else none

/-- The file-level message for an unresolved required column. -/
def msgRequiredColumn (f : PField) (header : List String) : String :=
  "Required column for " ++ f.jsName ++ " not found in header: " ++ jsJoin ", " header

/-- One particle record (`ParticleData` in fileParsers.ts).  Optional JS
    fields that are only attached when truthy are `Option`s. -/
structure ParticleData where
  batchId : String
  d10 : JSNum
  d50 : JSNum
  d90 : JSNum
  span : JSNum
  specificSurface : JSNum
  uniformity : Option ℚ
  volumeMean : Option ℚ
  submicronPercent : Option ℚ
  timestamp : Option String
  methodShort : Option String
  trial : Option String
  intermediateForm : Option String
deriving DecidableEq

/-- `if (x) obj.field = x` on a string: the empty string is dropped. -/
def nonEmptyOpt : Option String → Option String
  | some "" => none
  | o => o

/-- `parseNumericField` inside the row loop of `parseParticleData`: remove
    the first `%`, replace the first `,` by `.`, parse as float; a missing
    column, missing cell or NaN raises a row-positioned error when
    `required`, and is treated as absent otherwise. -/
def parseNumericField (cols : PField → Option Nat) (row : List String)
    (i : Nat) (f : PField) (required : Bool) : Except PError (Option ℚ) :=
  let missingCol : PError :=
    ⟨"Missing " ++ f.jsName ++ " column",
      "Row " ++ toString i ++ " has no " ++ f.jsName ++ " column identified",
      some i, some (jsJoin "," row)⟩
  match cols f with
  | none => if required then .error missingCol else .ok none
  | some index =>
    if row.length ≤ index then
      if required then .error missingCol else .ok none
    else
      let valueStr := cellAt row index
      if valueStr == "" && required then
        .error ⟨"Missing " ++ f.jsName ++ " value",
          "Row " ++ toString i ++ " has empty " ++ f.jsName ++ " value",
          some i, some (jsJoin "," row)⟩
      else
        match jsParseFloat (jsReplaceFirst (jsReplaceFirst valueStr "%" "") "," ".") with
        | none =>
          if required then
            .error ⟨"Invalid " ++ f.jsName ++ " value",
              "Row " ++ toString i ++ " has non-numeric " ++ f.jsName ++ ": " ++ valueStr,
              some i, some (jsJoin "," row)⟩
          else .ok none
        | some v => .ok (some v)

/-- An optional `parseNumericField` never raises; its value as an option. -/
def optNumericField (cols : PField → Option Nat) (row : List String)
    (i : Nat) (f : PField) : Option ℚ :=
  match parseNumericField cols row i f false with
  | .ok o => o
  | .error _ => none

/-- Decode of one data row of `parseParticleData` (`none` = row skipped for
    having at most one cell or only blank cells). -/
def particleRowDecode (cols : PField → Option Nat) (i : Nat)
    (row : List String) : Option (Except PError ParticleData) :=
  if row.length ≤ 1 || row.all (· == "") then none
  else some (
    let missingBatchCol : PError :=
      ⟨"Missing batch ID column",
        "Row " ++ toString i ++ " has no batch ID column identified",
        some i, some (jsJoin "," row)⟩
    match cols .batch with
    | none => .error missingBatchCol
    | some bIdx =>
      if row.length ≤ bIdx then .error missingBatchCol
      else
        let batchId := cellAt row bIdx
        if batchId == "" then
          .error ⟨"Missing batch ID value",
            "Row " ++ toString i ++ " has empty batch ID",
            some i, some (jsJoin "," row)⟩
        else
          match parseNumericField cols row i .d10 true with
          | .error e => .error e
          | .ok d10 =>
          match parseNumericField cols row i .d50 true with
          | .error e => .error e
          | .ok d50 =>
          match parseNumericField cols row i .d90 true with
          | .error e => .error e
          | .ok d90 =>
          let spanRes : Except PError JSNum :=
            match cols .span with
            | some sIdx =>
              if sIdx < row.length then
                match parseNumericField cols row i .span true with
                | .error e => .error e
                | .ok o => .ok o
              else .ok (jsDiv (jsSub d90 d10) d50)
            | none => .ok (jsDiv (jsSub d90 d10) d50)
          match spanRes with
          | .error e => .error e
          | .ok span =>
            let specificSurface : JSNum :=
              some ((optNumericField cols row i .surface).getD 0)
            let methodFallback : Option String :=
              match (extractMethodShort batchId).1 with
              | some m => if m == "" then none else some m
              | none => none
            let trialFallback : Option String :=
              if (extractTrial batchId).1 == "" then none
              else some (extractTrialWithoutLetter (extractTrial batchId).1)
            let formFallback : Option String :=
              if (extractTrial batchId).2 == "" then none
              else some (extractTrial batchId).2
            .ok {
              batchId := batchId
              d10 := d10, d50 := d50, d90 := d90, span := span
              specificSurface := specificSurface
              uniformity := optNumericField cols row i .uniformity
              volumeMean := optNumericField cols row i .volumeMean
              submicronPercent := optNumericField cols row i .submicron
              timestamp := nonEmptyOpt (match cols .timestamp with
                | some tIdx => if tIdx < row.length then some (cellAt row tIdx) else none
                | none => none)
              methodShort := nonEmptyOpt (match cols .methodShort with
                | some mIdx =>
                  if mIdx < row.length then some (cellAt row mIdx) else methodFallback
                | none => methodFallback)
              trial := nonEmptyOpt (match cols .trial with
                | some tIdx =>
                  if tIdx < row.length then some (cellAt row tIdx) else trialFallback
                | none => trialFallback)
              intermediateForm := nonEmptyOpt (match cols .intermediateForm with
                | some fIdx =>
                  if fIdx < row.length then some (cellAt row fIdx) else formFallback
                | none => formFallback) })

/-! ## Multi-section parser (parseMastersizerData, fileParsers.ts) -/

/-- First index at or after `i` whose line satisfies `p`. -/
def firstIdxFrom (p : String → Bool) : Nat → List String → Option Nat
  | _, [] => none
  | i, l :: ls => if p l then some i else firstIdxFrom p (i + 1) ls

/-- Indices of the first two lines satisfying `p` (the scan stops right
    after the second hit, exactly like the `break` in the source loops). -/
def firstTwoIdx (p : String → Bool) : Nat → List String → Option (Nat × Nat)
  | _, [] => none
  | i, l :: ls =>
    if p l then
      match firstIdxFrom p (i + 1) ls with
      | none => none
      | some j => some (i, j)
    else firstTwoIdx p (i + 1) ls

/-- Blank-line test of `parseMastersizerData`: `!lines[i].trim()`. -/
def msIsBlank (l : String) : Bool := jsTrim l == ""

/-- JS object property assignment on an association list: an existing key
    keeps its position but takes the new value. -/
def objUpsert {β : Type} (l : List (String × β)) (k : String) (v : β) : List (String × β) :=
  if l.any (fun p => p.1 == k) then l.map (fun p => if p.1 == k then (k, v) else p)
  else l ++ [(k, v)]

/-- JS object property read on an association list. -/
def objGet {β : Type} (l : List (String × β)) (k : String) : Option β :=
  (l.find? (fun p => p.1 == k)).map (fun p => p.2)

/-- The object `metadata[attr]` built by the metadata loop of
    `parseMastersizerData` (rows with fewer than two cells or an empty first
    cell are skipped; a later row with the same name resets the object, so
    only the last one counts; values are keyed by the header cells in
    order).  `none` when no row is named `attr`.  For-in iteration over the
    result is modelled in insertion order (integer-like sample names, which
    JS would reorder, do not occur in the inputs considered). -/
def msMetadataFor (metadataRows : List (List String)) (headers : List String)
    (attr : String) : Option (List (String × String)) :=
  let rows := (metadataRows.drop 1).filter
    (fun row => decide (2 ≤ row.length) && cellAt row 0 ≠ "" && cellAt row 0 == attr)
  match rows.getLast? with
  | none => none
  | some row =>
    some ((headers.zip (row.drop 1)).foldl (fun acc p => objUpsert acc p.1 p.2) [])

/-- Sample-row lookup in the measurement table: the first data row (header
    excluded) with more than one cell whose second cell is the sample name. -/
def msFindSampleRow (dataRows : List (List String)) (sampleName : String) :
    Option (List String) :=
  (dataRows.drop 1).find? (fun row => decide (1 < row.length) && cellAt row 1 == sampleName)

/-- Per-sample extraction of `parseMastersizerData` (the body of the
    per-sample `try`): `none` models both the `continue` on a missing sample
    row and a caught `TypeError` from calling `.replace` on an out-of-range
    cell; any other failure mode leaves NaN values in the record. -/
def msSampleStep (dataRows : List (List String))
    (d10Index d50Index d90Index : Nat) (spanIndex ssaIndex : Option Nat)
    (entry : String × String) : Option ParticleData :=
  match msFindSampleRow dataRows entry.1 with
  | none => none
  | some sampleRow =>
    if sampleRow.length ≤ d10Index || sampleRow.length ≤ d50Index ||
        sampleRow.length ≤ d90Index then none
    else
      let label := entry.2
      let d10 := jsParseFloat (jsReplaceFirst (cellAt sampleRow d10Index) "," ".")
      let d50 := jsParseFloat (jsReplaceFirst (cellAt sampleRow d50Index) "," ".")
      let d90 := jsParseFloat (jsReplaceFirst (cellAt sampleRow d90Index) "," ".")
      let span : JSNum :=
        match spanIndex with
        | some sIdx =>
          if cellAt sampleRow sIdx ≠ "" then
            jsParseFloat (jsReplaceFirst (cellAt sampleRow sIdx) "," ".")
          else jsDiv (jsSub d90 d10) d50
        | none => jsDiv (jsSub d90 d10) d50
      let specificSurface : JSNum :=
        match ssaIndex with
        | some aIdx =>
          if cellAt sampleRow aIdx ≠ "" then
            jsParseFloat (jsReplaceFirst (cellAt sampleRow aIdx) "," ".")
          else some 0
        | none => some 0
      let ms := extractMethodShort label
      let te := extractTrial (if ms.2 == "" then label else ms.2)
      some {
        batchId := label
        d10 := d10, d50 := d50, d90 := d90, span := span
        specificSurface := specificSurface
        uniformity := none, volumeMean := none, submicronPercent := none
        timestamp := none
        methodShort := nonEmptyOpt ms.1
        trial := if te.1 == "" then none else some (extractTrialWithoutLetter te.1)
        intermediateForm := if te.2 == "" then none else some te.2 }

/-- Message `"Couldn't find the required blank rows in Mastersizer file"`. -/
def msgBlankRows : String :=
  "Couldn" ++ sq ++ "t find the required blank rows in Mastersizer file"

/-- JS `array.slice(start, stop)` with a possibly negative stop index. -/
def jsSlice {α : Type} (l : List α) (start : Nat) (stop : Int) : List α :=
  let stopN : Nat := if stop < 0 then l.length - stop.natAbs else stop.toNat
  (l.take stopN).drop start

/-- State of the marker scan of `parseAlternativeMastersizerFormat`. -/
structure AltScan where
  fileTableEnd : Option Nat
  parametersStart : Option Nat
  sizeClassStart : Option Nat
deriving DecidableEq

/-- JS `s.startsWith(p)`. -/
def jsStartsWith (s p : String) : Bool := headMatchesPat s.toList p.toList

/-- One iteration of the marker scan (an `else if` chain; the parameters
    marker is only recorded once, the others keep the last hit). -/
def altScanStep (acc : AltScan) (p : Nat × String) : AltScan :=
  let line := jsTrim p.2
  if jsStartsWith line "File 10" || jsIncludes line "File  10" then
    { acc with fileTableEnd := some p.1 }
  else if jsIncludes line "Comment 1" && acc.parametersStart = none then
    { acc with parametersStart := some p.1 }
  else if jsIncludes line "Size class" then
    { acc with sizeClassStart := some p.1 }
  else acc

/-- The marker scan of `parseAlternativeMastersizerFormat`. -/
def altScan (lines : List String) : AltScan :=
  lines.enum.foldl altScanStep ⟨none, none, none⟩

/-- State of the attribute-row scan of the alternative format. -/
structure AltRows where
  d10Row : Option Nat
  d50Row : Option Nat
  d90Row : Option Nat
  spanRow : Option Nat
  ssaRow : Option Nat
deriving DecidableEq

/-- One iteration of the attribute-row scan (`else if` chain on the
    lower-cased first cell; every branch keeps the last hit). -/
def altRowsStep (acc : AltRows) (p : Nat × List String) : AltRows :=
  let rowName := jsLower (cellAt p.2 0)
  if jsIncludes rowName "x(q3=10.0 %)" || jsIncludes rowName "d(0.1)" ||
      jsIncludes rowName "d10" then { acc with d10Row := some p.1 }
  else if jsIncludes rowName "x(q3=50.0 %)" || jsIncludes rowName "d(0.5)" ||
      jsIncludes rowName "d50" then { acc with d50Row := some p.1 }
  else if jsIncludes rowName "x(q3=90.0 %)" || jsIncludes rowName "d(0.9)" ||
      jsIncludes rowName "d90" then { acc with d90Row := some p.1 }
  else if jsIncludes rowName "span" || jsIncludes rowName "span3" then
    { acc with spanRow := some p.1 }
  else if jsIncludes rowName "sv" || jsIncludes rowName "surface" ||
      jsIncludes rowName "specific surface" then { acc with ssaRow := some p.1 }
  else acc

/-- Per-file-column extraction of the alternative format (`continue` and the
    caught per-column exceptions are `none`). -/
def altFileStep (metadataRows : List (List String))
    (d10Row d50Row d90Row : Nat) (spanRow ssaRow : Option Nat)
    (comment1Row comment2Row : Nat) (colIdx : Nat) : Option ParticleData :=
  if (metadataRows.headD []).length ≤ colIdx then none
  else
    let label := cellAt (metadataRows.getD comment2Row []) colIdx
    if label == "" then none
    else if (metadataRows.getD d10Row []).length ≤ colIdx ||
        (metadataRows.getD d50Row []).length ≤ colIdx ||
        (metadataRows.getD d90Row []).length ≤ colIdx then none
    else
      let d10Str := jsReplaceFirst (cellAt (metadataRows.getD d10Row []) colIdx) "," "."
      let d50Str := jsReplaceFirst (cellAt (metadataRows.getD d50Row []) colIdx) "," "."
      let d90Str := jsReplaceFirst (cellAt (metadataRows.getD d90Row []) colIdx) "," "."
      if d10Str == "" || d50Str == "" || d90Str == "" then none
      else
        match jsParseFloat d10Str, jsParseFloat d50Str, jsParseFloat d90Str with
        | some d10, some d50, some d90 =>
          let span : JSNum :=
            match spanRow with
            | some sr =>
              if cellAt (metadataRows.getD sr []) colIdx ≠ "" then
                jsParseFloat (jsReplaceFirst (cellAt (metadataRows.getD sr []) colIdx) "," ".")
              else jsDiv (jsSub (some d90) (some d10)) (some d50)
            | none => jsDiv (jsSub (some d90) (some d10)) (some d50)
          let specificSurface : JSNum :=
            match ssaRow with
            | some ar =>
              if cellAt (metadataRows.getD ar []) colIdx ≠ "" then
                jsParseFloat (jsReplaceFirst (cellAt (metadataRows.getD ar []) colIdx) "," ".")
              else some 0
            | none => some 0
          let mraNo := cellAt (metadataRows.getD comment1Row []) colIdx
          let ms := extractMethodShort label
          let te := extractTrial (if ms.2 == "" then label else ms.2)
          some {
            batchId := label
            d10 := some d10, d50 := some d50, d90 := some d90, span := span
            specificSurface := specificSurface
            uniformity := none, volumeMean := none, submicronPercent := none
            timestamp := if mraNo == "" then none else some mraNo
            methodShort := nonEmptyOpt ms.1
            trial := if te.1 == "" then none else some (extractTrialWithoutLetter te.1)
            intermediateForm := if te.2 == "" then none else some te.2 }
        | _, _, _ => none

/-- `parseAlternativeMastersizerFormat` (fileParsers.ts). -/
def parseAlternativeMastersizerFormat (content : String) : ParseResult ParticleData :=
  let lines := jsSplit content '\n'
  let scan := altScan lines
  match scan.fileTableEnd, scan.parametersStart with
  | none, _ => .failure (errorFrom "Could not find required sections in the file structure")
  | _, none => .failure (errorFrom "Could not find required sections in the file structure")
  | some _, some pStart =>
    let stopIdx : Int := match scan.sizeClassStart with
      | some s => (s : Int)
      | none => -1
    let metadataRows := ((jsSlice lines pStart stopIdx).filter (fun l => jsTrim l ≠ ""))
        |>.map (fun line => (jsSplit line '\t').map jsTrim)
    let rowsScan := metadataRows.enum.foldl altRowsStep ⟨none, none, none, none, none⟩
    match rowsScan.d10Row, rowsScan.d50Row, rowsScan.d90Row with
    | some d10Row, some d50Row, some d90Row =>
      match metadataRows.findIdx? (fun row => jsIncludes (cellAt row 0) "Comment 1"),
          metadataRows.findIdx? (fun row => jsIncludes (cellAt row 0) "Comment 2") with
      | some c1Row, some c2Row =>
        let data := (List.range' 1 10).filterMap
          (altFileStep metadataRows d10Row d50Row d90Row
            rowsScan.spanRow rowsScan.ssaRow c1Row c2Row)
        if data.length = 0 then
          .failure (errorFrom "No valid particle size data could be extracted from the file")
        else .success data
      | _, _ => .failure (errorFrom "Could not find Comment 1 and Comment 2 rows")
    | _, _, _ =>
      .failure (errorFrom "Could not find required particle size distribution rows (d10, d50, d90)")

/-- `parseMastersizerData` (fileParsers.ts): the transposed multi-section
    instrument-dump parser. -/
def parseMastersizerData (content : String) : ParseResult ParticleData :=
  let lines := jsSplit content '\n'
  if lines.length < 10 then
    .failure (errorFrom "Mastersizer file has insufficient data")
  else if jsIncludes content "File  1" && jsIncludes content "Size class" then
    parseAlternativeMastersizerFormat content
  else
    match firstTwoIdx msIsBlank 0 lines with
    | none => .failure (errorFrom msgBlankRows)
    | some (b0, b1) =>
      let metadataRows := ((lines.drop (b0 + 1)).take (b1 - (b0 + 1)))
          |>.map (fun line => (jsSplit line '\t').map jsTrim)
      let metadataHeaders := ((metadataRows.headD []).drop 1).filter (fun c => c ≠ "")
      let dataRows := ((lines.drop (b1 + 2)).filter (fun l => jsTrim l ≠ ""))
          |>.map (fun line => (jsSplit line '\t').map jsTrim)
      match msMetadataFor metadataRows metadataHeaders "Comment 2" with
      | none =>
        .failure (errorFrom "Missing required data or Comment 2 metadata in Mastersizer file")
      | some comment2 =>
        if dataRows.isEmpty then
          .failure (errorFrom "Missing required data or Comment 2 metadata in Mastersizer file")
        else
          let headerRow := dataRows.headD []
          match headerRow.findIdx? (fun h =>
              jsIncludes (jsLower h) "d(0.1)" || jsIncludes (jsLower h) "d[0.1]"),
            headerRow.findIdx? (fun h =>
              jsIncludes (jsLower h) "d(0.5)" || jsIncludes (jsLower h) "d[0.5]"),
            headerRow.findIdx? (fun h =>
              jsIncludes (jsLower h) "d(0.9)" || jsIncludes (jsLower h) "d[0.9]") with
          | some d10I, some d50I, some d90I =>
            let spanI := headerRow.findIdx? (fun h => jsIncludes (jsLower h) "span")
            let ssaI := headerRow.findIdx? (fun h =>
              jsIncludes (jsLower h) "specific surface" || jsIncludes (jsLower h) "surface area")
            let data := comment2.filterMap (msSampleStep dataRows d10I d50I d90I spanI ssaI)
            if data.length = 0 then
              .failure (errorFrom "No valid particle size data found in Mastersizer file")
            else .success data
          | _, _, _ =>
            .failure (errorFrom
              "Could not find required particle size distribution columns (d10, d50, d90)")

/-- The Mastersizer routing test at the top of `parseParticleData`. -/
def mastersizerMarkers (content : String) : Bool :=
  jsIncludes content "\t" &&
    (jsIncludes content "Comment 1" || jsIncludes content "Comment 2" ||
     jsIncludes content "File  1" || jsIncludes content "Size class")

/-- `parseParticleData` (fileParsers.ts, enhanced version). -/
def parseParticleData (content : String) : ParseResult ParticleData :=
  if mastersizerMarkers content then parseMastersizerData content
  else
    let rows := parseCSV content
    if rows.length < 2 then
      .failure (errorFrom "File is empty or has insufficient data rows")
    else
      let header := particleHeader rows
      match firstMissingRequired header with
      | some f => .failure (errorFrom (msgRequiredColumn f header))
      | none =>
        match rowLoop (particleRowDecode (particleCols header)) 1 (rows.drop 1) with
        | .error e => .failure e
        | .ok data =>
          if data.length = 0 then
            .failure (errorFrom "No valid particle size data found in file")
          else .success data

/-! ## parseCAMFile (ParticleParserService.ts) -/

/-- A JS object value in the CAM tables: a string, a number, `null`, or
    `undefined`. -/
inductive JVal where
  | str (s : String)
  | num (q : ℚ)
  | null
  | undef
deriving DecidableEq

/-- `content.split(/\r?\n/)`: split on LF, each piece losing one trailing
    CR. -/
def camLines (content : String) : List String :=
  (jsSplit content '\n').map (fun l =>
    if l.toList.getLast? = some '\r' then String.mk l.toList.dropLast else l)

/-- Blank-line test of `parseCAMFile`: `!line || !columns[0]` — the line is
    the empty string, or its first tab-delimited cell is (no trimming). -/
def camIsBlank (line : String) : Bool :=
  line == "" || cellAt (jsSplit line '\t') 0 == ""

/-- The metadata lines of `parseCAMFile` (`table2` region): 0-based indices
    `blankRow1 .. blankRow2 - 2` for the 1-based blank line numbers, i.e.
    the lines strictly between the two blank lines, split on tabs and not
    trimmed. -/
def camTable2Rows (lines : List String) (blankRow1 blankRow2 : Nat) :
    List (List String) :=
  ((lines.drop blankRow1).take (blankRow2 - 1 - blankRow1)).map (fun l => jsSplit l '\t')

/-- `table2Headers`: the truthy cells after the first of the first metadata
    row, provided that row passes the shared guards (two cells and a
    non-empty first cell). -/
def camTable2Headers (rows : List (List String)) : List String :=
  match rows with
  | [] => []
  | r0 :: _ =>
    if r0.length < 2 || cellAt r0 0 == "" then []
    else (r0.drop 1).filter (fun c => c ≠ "")

/-- `table2Data[h]` (equal to `table2Transposed[h]`, the copy loop being the
    identity): for every kept metadata data row and every position `j ≥ 1`
    holding header `h`, assign `row[0] ↦ row[j]`; later assignments
    overwrite. -/
def camTable2Data (headers : List String) (dataRows : List (List String))
    (h : String) : List (String × String) :=
  dataRows.foldl (fun acc row =>
    if row.length < 2 || cellAt row 0 == "" then acc
    else
      (headers.enum.filter (fun p => p.2 == h)).foldl (fun acc2 p =>
        let j := p.1 + 1
        if j < row.length then objUpsert acc2 (cellAt row 0) (cellAt row j) else acc2)
        acc) []

/-- A measurement-table cell: first comma turned into a dot, then converted
    to a number when parseable. -/
def camCellVal (cell : String) : JVal :=
  let v := jsReplaceFirst cell "," "."
  match jsParseFloat v with
  | some q => .num q
  | none => .str v

/-- `table3`: at most 100 lines starting at 0-based index `blankRow2 + 2`
    (`blankRow2` being the 1-based line number of the second blank line);
    rows with fewer than three cells are dropped. -/
def camTable3 (lines : List String) (blankRow2 : Nat) : List (List JVal) :=
  (((lines.drop (blankRow2 + 2)).take 100).map (fun l => jsSplit l '\t'))
    |>.filter (fun row => 3 ≤ row.length)
    |>.map (fun row => row.map camCellVal)

/-- JS coercion of a cell value to an object key.  (Number keys are rendered
    as `num/den`; JS prints decimal notation instead, but nothing proved
    here depends on these keys.) -/
def jvalKey : JVal → String
  | .str s => s
  | .num q => if q.den = 1 then toString q.num else toString q.num ++ "/" ++ toString q.den
  | .null => "null"
  | .undef => "undefined"

/-- `parseFloat` applied to a stored cell value. -/
def jvalParseFloat : JVal → JSNum
  | .num q => some q
  | .str s => jsParseFloat s
  | .null => none
  | .undef => none

/-- JS truthiness of a cell value. -/
def jvalTruthy : JVal → Bool
  | .str s => s ≠ ""
  | .num q => q ≠ 0
  | .null => false
  | .undef => false

/-- JS string coercion of a cell value. -/
def jvalToStr : JVal → String
  | .str s => s
  | .num q => jvalKey (.num q)
  | .null => "null"
  | .undef => "undefined"

/-- The constant `rowKey` of the chart loop: the `Comment 2` value of the
    first sample column whose metadata object exists and has a truthy
    `Comment 2`. -/
def camChartRowKey (headers : List String)
    (t2 : String → List (String × String)) : String :=
  match headers.find? (fun h => ((objGet (t2 h) "Comment 2").getD "") ≠ "") with
  | some h => (objGet (t2 h) "Comment 2").getD ""
  | none => ""

/-- `tmpChartData[rowKey]`: for every measurement row and every column from
    the third on, record `colLabel ↦ value` for parseable values (later
    assignments overwrite). -/
def camChartEntries (rk : String) (table3 : List (List JVal)) :
    List (String × ℚ) :=
  table3.foldl (fun acc row =>
    (row.enum.drop 2).foldl (fun acc2 p =>
      if rk == "" then acc2
      else
        match jvalParseFloat p.2 with
        | none => acc2
        | some v => objUpsert acc2 (jvalKey (row.getD 1 .undef)) v) acc) []

/-- `chartTable`: the single `tmpChartData` row (if any) with `'0.1': 0.00`
    appended. -/
def camChartTable (rk : String) (table3 : List (List JVal)) :
    List (List (String × ℚ)) :=
  let entries := camChartEntries rk table3
  if entries.isEmpty then [] else [objUpsert entries "0.1" 0]

/-- `dataTable`: one row per sample column with an existing metadata object;
    every attribute other than the two comments is converted to a number
    when `parseFloat(value.replace(',', '.'))` parses. -/
def camDataTable (headers : List String)
    (t2 : String → List (String × String)) : List (List (String × JVal)) :=
  headers.filterMap (fun h =>
    let columnData := t2 h
    if columnData.isEmpty then none
    else some (columnData.map (fun p =>
      if p.1 ≠ "Comment 1" && p.1 ≠ "Comment 2" then
        match jsParseFloat (jsReplaceFirst p.2 "," ".") with
        | some q => (p.1, JVal.num q)
        | none => (p.1, JVal.str p.2)
      else (p.1, JVal.str p.2))))

/-- One combined `camTable` row: the dataTable row with `Comment 1`/
    `Comment 2` renamed to `MRA_no`/`Label_OU_SR`, then the chartTable row
    merged over it. -/
def camCombineRow (d : Option (List (String × JVal)))
    (c : Option (List (String × ℚ))) : List (String × JVal) :=
  let base := match d with
    | some row => row.foldl (fun acc p =>
        let k := if p.1 == "Comment 1" then "MRA_no"
          else if p.1 == "Comment 2" then "Label_OU_SR" else p.1
        objUpsert acc k p.2) []
    | none => []
  match c with
  | some crow => crow.foldl (fun acc p => objUpsert acc p.1 (JVal.num p.2)) base
  | none => base

/-- `camTable` before label extraction. -/
def camTableOf (dataTable : List (List (String × JVal)))
    (chartTable : List (List (String × ℚ))) : List (List (String × JVal)) :=
  (List.range (max dataTable.length chartTable.length)).map
    (fun i => camCombineRow (dataTable.get? i) (chartTable.get? i))

/-- The label-decomposition pass over one `camTable` row: rows with a truthy
    `Label_OU_SR` gain `Method_short`, `Trial`, `Intermediate_Form` and
    `Batch`, and `Label_OU_SR` is replaced by the post-method remainder. -/
def camApplyExtract (row : List (String × JVal)) : List (String × JVal) :=
  match objGet row "Label_OU_SR" with
  | some v =>
    if jvalTruthy v then
      let s := jvalToStr v
      let ms := extractMethodShort s
      let r1 := objUpsert row "Method_short"
        (match ms.1 with
          | some m => JVal.str m
          | none => JVal.null)
      let r2 := objUpsert r1 "Label_OU_SR" (JVal.str ms.2)
      let te := extractTrial ms.2
      let r3 := objUpsert r2 "Trial" (JVal.str te.1)
      let r4 := objUpsert r3 "Intermediate_Form" (JVal.str te.2)
      objUpsert r4 "Batch" (JVal.str (extractTrialWithoutLetter te.1))
    else row
  | none => row

/-- The melt/unpivot: numeric-keyed columns of the first row become one
    `(Size_class, Value)` pair per row and size class. -/
def camUnpivot (camTable : List (List (String × JVal))) :
    List (List (String × JVal)) :=
  let sizeClasses := ((camTable.headD []).map (fun p => p.1)).filter
    (fun k => (jsParseFloat k).isSome)
  camTable.foldl (fun acc row =>
    acc ++ sizeClasses.map (fun sc =>
      let base := row.filter (fun p => !sizeClasses.contains p.1)
      let r1 := objUpsert base "Size_class" (JVal.str sc)
      objUpsert r1 "Value" ((objGet row sc).getD .undef))) []

/-- `parseCAMFile` (ParticleParserService.ts): records the 1-based line
    numbers of the first two blank lines (stopping the scan at the second)
    and fails when fewer than two exist; otherwise builds the metadata and
    measurement tables, joins them, decomposes the labels and unpivots.  On
    success the data are the long-form rows (JS objects as association
    lists). -/
def parseCAMFile (content : String) : ParseResult (List (String × JVal)) :=
  let lines := camLines content
  match firstTwoIdx camIsBlank 1 lines with
  | none => .failure ⟨"Invalid file format",
      "Could not locate two distinct blank rows in the file. Check file format.",
      none, none⟩
  | some (blankRow1, blankRow2) =>
    let t2rows := camTable2Rows lines blankRow1 blankRow2
    let headers := camTable2Headers t2rows
    let t2 := camTable2Data headers (t2rows.drop 1)
    let table3 := camTable3 lines blankRow2
    let rk := camChartRowKey headers t2
    let chartTable := camChartTable rk table3
    let dataTable := camDataTable headers t2
    let camTable := (camTableOf dataTable chartTable).map camApplyExtract
    .success (camUnpivot camTable)

/-! ## Label decomposition entry point and spec-side comparison definitions -/

/-- The decomposed label of spec §6 `decomposeLabel`. -/
structure LabelParts where
  methodCode : Option String
  trial : String
  intermediateForm : String
  canonicalBatch : String
deriving DecidableEq

/-- The label pipeline exactly as `parseCAMFile` chains the three extractors
    (method prefix, then trial/intermediate-form split of the remainder, then
    canonical-batch extraction from the trial). -/
def decomposeLabel (label : String) : LabelParts :=
  let ms := extractMethodShort label
  let te := extractTrial ms.2
  { methodCode := ms.1, trial := te.1, intermediateForm := te.2,
    canonicalBatch := extractTrialWithoutLetter te.1 }

/-- Spec-side definition following claim C4's wording of step (2): the
    working label is split at the first run of comma/space — the part before
    the run, and the part after the whole run, trimmed; with no separator the
    trial is the whole string and the intermediate form empty.  For
    comparison with `extractTrial`. -/
def claimSplitAtFirstRun (s : String) : String × String :=
  let cs := s.toList
  let pre := cs.takeWhile (fun c => !trialSep c)
  let rest := (cs.drop pre.length).dropWhile trialSep
  if pre.length = cs.length then (s, "")
  else (String.mk pre, jsTrim (String.mk rest))

/-- Spec-side definition following claim C6's wording: strip a *trailing*
    `%`, replace `,` by `.`, then parse as floating point.  For comparison
    with the decoding done by `parseNumericField`. -/
def claimNumericDecode (s : String) : JSNum :=
  let s1 := if s.toList.getLast? = some '%' then String.mk s.toList.dropLast else s
  jsParseFloat (jsReplaceFirst s1 "," ".")

/-- 1-based positions of the lines satisfying `p` (transparent counterpart
    of the blank-row scan, for stating what the scan records). -/
def blankPositions (p : String → Bool) : Nat → List String → List Nat
  | _, [] => []
  | k, l :: ls =>
    if p l then k :: blankPositions p (k + 1) ls else blankPositions p (k + 1) ls

/-! ## Concrete inputs used by the claim theorems -/

/-- Simple dissolution file, row 3 of 5 holding a malformed vessel value. -/
def dissErrSample : String :=
  "Time Point,Vessel 1,Vessel 2,Vessel 3,Vessel 4,Vessel 5,Vessel 6\n" ++
  "5,1,2,3,4,5,6\n10,1,2,3,4,5,6\n15,1,2,abc,4,5,6\n30,1,2,3,4,5,6\n45,1,2,3,4,5,6"

/-- Multi-section file with five samples; S3's measurement row is too short,
    so its extraction fails and only that sample is dropped. -/
def msFiveSample : String :=
  "Top\n\nName\tS1\tS2\tS3\tS4\tS5\nComment 2\tL1\tL2\tL3\tL4\tL5\n\nskip\n" ++
  "Idx\tRec\td(0.1)\td(0.5)\td(0.9)\n" ++
  "1\tS1\t1\t2\t4\n2\tS2\t1\t2\t4\n3\tS3\n4\tS4\t1\t2\t4\n5\tS5\t1\t2\t4"

/-- The record `parseMastersizerData` builds for label `l` from the sample
    rows of `msFiveSample` / `c8Big`. -/
def msPlainRec (l : String) : ParticleData :=
  { batchId := l, d10 := some 1, d50 := some 2, d90 := some 4,
    span := some (3 / 2), specificSurface := some 0,
    uniformity := none, volumeMean := none, submicronPercent := none,
    timestamp := none, methodShort := none, trial := some l,
    intermediateForm := none }

/-- The four records extracted from `msFiveSample`. -/
def msFiveData : List ParticleData :=
  [msPlainRec "L1", msPlainRec "L2", msPlainRec "L4", msPlainRec "L5"]

/-- Simple particle file with an explicit span column whose value (9)
    differs from the computed `(d90 - d10) / d50 = 3/2`. -/
def spanSample : String := "batch,d10,d50,d90,span\nB1,1,2,4,9"

/-- The record parsed from `spanSample`. -/
def spanSampleRec : ParticleData :=
  { batchId := "B1", d10 := some 1, d50 := some 2, d90 := some 4,
    span := some 9, specificSurface := some 0,
    uniformity := none, volumeMean := none, submicronPercent := none,
    timestamp := none, methodShort := none, trial := some "B1",
    intermediateForm := none }

/-- Simple particle file without a span column (for the C2 witness). -/
def noSpanSample : String := "batch,d10,d50,d90\nB2,1,2,4"

/-- The record parsed from `noSpanSample`. -/
def noSpanRec : ParticleData :=
  { batchId := "B2", d10 := some 1, d50 := some 2, d90 := some 4,
    span := some (3 / 2), specificSurface := some 0,
    uniformity := none, volumeMean := none, submicronPercent := none,
    timestamp := none, methodShort := none, trial := some "B2",
    intermediateForm := none }

/-- Particle file whose d10 cell is `5%0`: `%` is removed at its first
    occurrence, giving 50, not the 5 a trailing-only strip would give. -/
def c6Sample : String := "batch,d10,d50,d90\nB1,5%0,2,4"

/-- The record parsed from `c6Sample`. -/
def c6Rec : ParticleData :=
  { batchId := "B1", d10 := some 50, d50 := some 2, d90 := some 4,
    span := some (-23), specificSurface := some 0,
    uniformity := none, volumeMean := none, submicronPercent := none,
    timestamp := none, methodShort := none, trial := some "B1",
    intermediateForm := none }

/-- CAM file whose only candidate blank lines consist of a single space:
    blank for the claim's trimming test, not blank for `parseCAMFile`. -/
def c7Sample : String := "a\tb\n \n \nc\td"

/-- The claim-C7 notion of a blank line: empty after trimming, or the first
    tab-delimited cell empty. -/
def claimC7Blank (l : String) : Bool :=
  jsTrim l == "" || cellAt (jsSplit l '\t') 0 == ""

/-- Multi-section file whose matching sample row is the 102nd row of the
    measurement region (data row index 101, beyond the claimed 100-row cap):
    header line, 100 filler rows, then the row for sample S1. -/
def c8Big : String :=
  jsJoin "\n" (["Top", "", "Name\tS1", "Comment 2\tLBL1", "", "skip",
    "Idx\tRec\td(0.1)\td(0.5)\td(0.9)"] ++
    List.replicate 100 "0\tX\t0\t0\t0" ++ ["1\tS1\t1\t2\t4"])

/-- `c8Big` truncated to its first 107 lines: identical except that the rows
    beyond the 100th measurement data row are gone. -/
def c8BigTrunc : String :=
  jsJoin "\n" (["Top", "", "Name\tS1", "Comment 2\tLBL1", "", "skip",
    "Idx\tRec\td(0.1)\td(0.5)\td(0.9)"] ++
    List.replicate 100 "0\tX\t0\t0\t0")

/-- Semicolon-delimited dissolution table (for C10). -/
def c10Semi : String :=
  "Time Point;Vessel 1;Vessel 2;Vessel 3;Vessel 4;Vessel 5;Vessel 6\n5;1;2;3;4;5;6"

/-! # Theorems

    Shared lemmas first, then one theorem (plus witness or counterexample)
    per claim. -/

/-- The row loop aborts with the first row error: rows before it may be
    skipped or decoded but none may error, and nothing after it matters. -/
theorem rowLoop_first_error {E A : Type} (dec : Nat → List String → Option (Except E A)) :
    ∀ (pre : List (List String)) (i0 : Nat) (r : List String)
      (post : List (List String)) (e : E),
      (∀ j, j < pre.length → ∀ e2, dec (i0 + j) (pre.getD j []) ≠ some (.error e2)) →
      dec (i0 + pre.length) r = some (.error e) →
      rowLoop dec i0 (pre ++ r :: post) = .error e := by
  intro pre
  induction pre with
  | nil =>
    intro i0 r post e _ hr
    simp only [List.length_nil, Nat.add_zero] at hr
    simp [rowLoop, hr]
  | cons p ps ih =>
    intro i0 r post e hpre hr
    have hp : ∀ e2, dec i0 p ≠ some (.error e2) := by
      have h0 := hpre 0 (by simp)
      simpa using h0
    show rowLoop dec i0 (p :: (ps ++ r :: post)) = .error e
    have hrec : rowLoop dec (i0 + 1) (ps ++ r :: post) = .error e := by
      apply ih
      · intro j hj e2
        have h1 := hpre (j + 1) (by simpa using Nat.succ_lt_succ hj) e2
        have harith : i0 + (j + 1) = i0 + 1 + j := by omega
        rw [harith] at h1
        simpa using h1
      · have harith : i0 + 1 + ps.length = i0 + (ps.length + 1) := by omega
        rw [harith]
        simpa using hr
    unfold rowLoop
    cases hdec : dec i0 p with
    | none => simpa using hrec
    | some x =>
      cases x with
      | error e2 => exact absurd hdec (hp e2)
      | ok a => simp [hrec]

/-- Every record in a successful row-loop run comes from one row decode. -/
theorem rowLoop_mem {E A : Type} (dec : Nat → List String → Option (Except E A)) :
    ∀ (rows : List (List String)) (i : Nat) (l : List A),
      rowLoop dec i rows = .ok l → ∀ a ∈ l, ∃ j r, dec j r = some (.ok a) := by
  intro rows
  induction rows with
  | nil =>
    intro i l h a ha
    simp only [rowLoop] at h
    cases h
    simp at ha
  | cons row rest ih =>
    intro i l h a ha
    unfold rowLoop at h
    cases hdec : dec i row with
    | none =>
      rw [hdec] at h
      exact ih (i + 1) l h a ha
    | some x =>
      cases x with
      | error e => rw [hdec] at h; cases h
      | ok b =>
        rw [hdec] at h
        cases hrec : rowLoop dec (i + 1) rest with
        | error e => rw [hrec] at h; cases h
        | ok l2 =>
          rw [hrec] at h
          cases h
          rcases List.mem_cons.mp ha with hab | hmem
          · exact ⟨i, row, by rw [hdec, hab]⟩
          · exact ih (i + 1) l2 hrec a hmem

/-- `dissVessels` returns one value per vessel index. -/
theorem dissVessels_length (header : List String) (i : Nat) (row : List String) :
    ∀ (idxs : List Nat) (l : List ℚ),
      dissVessels header i row idxs = .ok l → l.length = idxs.length := by
  intro idxs
  induction idxs with
  | nil =>
    intro l h
    simp only [dissVessels] at h
    cases h
    rfl
  | cons idx rest ih =>
    intro l h
    unfold dissVessels at h
    by_cases hlt : idx < row.length
    · rw [if_pos hlt] at h
      cases hpf : jsParseFloat (cellAt row idx) with
      | none => rw [hpf] at h; cases h
      | some v =>
        rw [hpf] at h
        cases hrec : dissVessels header i row rest with
        | error e => rw [hrec] at h; cases h
        | ok l2 =>
          rw [hrec] at h
          cases h
          simp [ih l2 hrec]
    · rw [if_neg hlt] at h
      cases h

/-- A header consisting of one of the aliases resolves to column 0 already
    in the exact-match phase. -/
theorem resolveColumn_self :
    ∀ (names : List String) (a : String), a ∈ names →
      resolveColumn [a] names = some 0 := by
  intro names a ha
  unfold resolveColumn
  have h : names.findSome? (fun n => [a].findIdx? (fun col => col == n)) = some 0 := by
    induction names with
    | nil => simp at ha
    | cons n ns ih =>
      rw [List.findSome?_cons]
      by_cases he : a = n
      · subst he
        simp [List.findIdx?]
      · have hnone : ([a].findIdx? (fun col => col == n)) = none := by
          simp [List.findIdx?, he]
        rw [hnone]
        exact ih (by rcases List.mem_cons.mp ha with h | h; exact absurd h he; exact h)
  rw [h]

/-- Splitting a list free of the separator yields a single piece. -/
theorem splitCharAux_no_sep (sep : Char) :
    ∀ (cs acc : List Char), (∀ c ∈ cs, c ≠ sep) →
      splitCharAux sep cs acc = [acc.reverse ++ cs] := by
  intro cs
  induction cs with
  | nil =>
    intro acc _
    simp [splitCharAux]
  | cons c t ih =>
    intro acc h
    have hc : ¬(c = sep) := h c (by simp)
    rw [splitCharAux, if_neg hc, ih (c :: acc) (fun x hx => h x (by simp [hx]))]
    simp

/-- `dropWhile` over a prefix entirely satisfying the predicate. -/
theorem dropWhile_all_append (p : Char → Bool) :
    ∀ (pre l : List Char), (∀ x ∈ pre, p x = true) →
      (pre ++ l).dropWhile p = l.dropWhile p := by
  intro pre
  induction pre with
  | nil => intro l _; rfl
  | cons a t ih =>
    intro l h
    rw [List.cons_append, List.dropWhile_cons, if_pos (by simp [h a (by simp)])]
    exact ih l (fun x hx => h x (by simp [hx]))

/-- `takeWhile` stops exactly at the first failing element. -/
theorem takeWhile_all_append (q : Char → Bool) :
    ∀ (run : List Char) (c : Char) (rest : List Char),
      (∀ x ∈ run, q x = true) → q c = false →
      (run ++ c :: rest).takeWhile q = run := by
  intro run
  induction run with
  | nil =>
    intro c rest _ hc
    simp [List.takeWhile_cons, hc]
  | cons a t ih =>
    intro c rest h hc
    rw [List.cons_append, List.takeWhile_cons, if_pos (by simp [h a (by simp)])]
    rw [ih c rest (fun x hx => h x (by simp [hx])) hc]

/-- The single-index scan returns the head of the position list. -/
theorem firstIdxFrom_eq_head (p : String → Bool) :
    ∀ (ls : List String) (k : Nat),
      firstIdxFrom p k ls = (blankPositions p k ls).head? := by
  intro ls
  induction ls with
  | nil => intro k; rfl
  | cons l t ih =>
    intro k
    by_cases h : p l <;> simp [firstIdxFrom, blankPositions, h, ih]

/-- The two-index scan returns the first two 1-based (or `k`-based) blank
    positions, `none` when fewer than two exist. -/
theorem firstTwoIdx_eq_positions (p : String → Bool) :
    ∀ (ls : List String) (k : Nat),
      firstTwoIdx p k ls =
        (match blankPositions p k ls with
         | a :: b :: _ => some (a, b)
         | _ => none) := by
  intro ls
  induction ls with
  | nil => intro k; rfl
  | cons l t ih =>
    intro k
    by_cases h : p l
    · rw [firstTwoIdx, if_pos h, firstIdxFrom_eq_head]
      simp only [blankPositions, if_pos h]
      cases hbp : blankPositions p (k + 1) t with
      | nil => simp
      | cons a rest => simp
    · rw [firstTwoIdx, if_neg h, ih]
      simp only [blankPositions, if_neg h]

/-! ## Claim C1: failure isolation by format -/

/-- C1: failure isolation differs by format.  (a)/(b) The row loop shared by
    `parseDissolutionData` and `parseParticleData` aborts at the first
    row-level error — earlier rows may only be skipped or decoded, everything
    after the failing row is discarded, and only the positioned error (with
    the row's 1-based data-row index and the raw joined row inside it) is
    returned, never a partial record list.  (c) In `parseMastersizerData` a
    sample whose extraction fails is omitted and the loop continues over the
    remaining samples unchanged.  (d) Concretely, a malformed vessel value in
    data row 3 of 5 yields `Failure` with `line = 3` and the raw joined row;
    (e) one short sample row among five yields `Success` with the 4 other
    records. -/
theorem c1_failure_isolation :
    (∀ (header : List String) (tIdx : Nat) (vIdxs : List Nat)
       (pre : List (List String)) (i0 : Nat) (r : List String)
       (post : List (List String)) (e : PError),
       (∀ j, j < pre.length → ∀ e2,
         dissRowDecode header tIdx vIdxs (i0 + j) (pre.getD j []) ≠ some (.error e2)) →
       dissRowDecode header tIdx vIdxs (i0 + pre.length) r = some (.error e) →
       rowLoop (dissRowDecode header tIdx vIdxs) i0 (pre ++ r :: post) = .error e) ∧
    (∀ (cols : PField → Option Nat)
       (pre : List (List String)) (i0 : Nat) (r : List String)
       (post : List (List String)) (e : PError),
       (∀ j, j < pre.length → ∀ e2,
         particleRowDecode cols (i0 + j) (pre.getD j []) ≠ some (.error e2)) →
       particleRowDecode cols (i0 + pre.length) r = some (.error e) →
       rowLoop (particleRowDecode cols) i0 (pre ++ r :: post) = .error e) ∧
    (∀ (dataRows : List (List String)) (a b c : Nat) (si ai : Option Nat)
       (pre : List (String × String)) (x : String × String)
       (post : List (String × String)),
       msSampleStep dataRows a b c si ai x = none →
       (pre ++ x :: post).filterMap (msSampleStep dataRows a b c si ai) =
         (pre ++ post).filterMap (msSampleStep dataRows a b c si ai)) ∧
    parseDissolutionData dissErrSample = .failure
      ⟨"Invalid vessel value", "Row 3, column Vessel 3 has non-numeric value: abc",
        some 3, some "15,1,2,abc,4,5,6"⟩ ∧
    (parseMastersizerData msFiveSample = .success msFiveData ∧ msFiveData.length = 4) := by
  refine ⟨fun header tIdx vIdxs => rowLoop_first_error _,
          fun cols => rowLoop_first_error _, ?_, ?_, ?_, ?_⟩
  · intro dataRows a b c si ai pre x post hx
    simp [List.filterMap_append, List.filterMap_cons, hx]
  · with_unfolding_all decide
  · with_unfolding_all decide
  · with_unfolding_all decide

/-- C1 witness: the first-error rule applied at a concrete input. -/
theorem c1_failure_isolation_witness :
    rowLoop (dissRowDecode ["time", "vessel 1"] 0 [1]) 1 [["5", "x"], ["6", "7"]] =
      .error ⟨"Invalid vessel value",
        "Row 1, column vessel 1 has non-numeric value: x", some 1, some "5,x"⟩ := by
  have h := c1_failure_isolation.1 ["time", "vessel 1"] 0 [1] [] 1 ["5", "x"] [["6", "7"]]
    ⟨"Invalid vessel value", "Row 1, column vessel 1 has non-numeric value: x",
      some 1, some "5,x"⟩
    (by intro j hj e2; simp at hj)
    (by with_unfolding_all decide)
  simpa using h

/-! ## Claim C2: span derivation -/

/-- With no span column resolved, the span of a decoded particle row is
    computed from the very values stored in the record. -/
theorem particleRow_span_computed (cols : PField → Option Nat)
    (hspan : cols .span = none) (i : Nat) (row : List String) (rec : ParticleData)
    (h : particleRowDecode cols i row = some (.ok rec)) :
    rec.span = jsDiv (jsSub rec.d90 rec.d10) rec.d50 := by
  unfold particleRowDecode at h
  simp only [hspan] at h
  split at h
  · cases h
  · injection h with h
    split at h
    · cases h
    · split at h
      · cases h
      · split at h
        · cases h
        · split at h
          · cases h
          · split at h
            · cases h
            · split at h
              · cases h
              · injection h with h
                subst h
                rfl

/-- A sample record of `parseMastersizerData` with no span column found has
    its span computed from the record's own values. -/
theorem msSample_span_computed (dataRows : List (List String)) (a b c : Nat)
    (ai : Option Nat) (entry : String × String) (rec : ParticleData)
    (h : msSampleStep dataRows a b c none ai entry = some rec) :
    rec.span = jsDiv (jsSub rec.d90 rec.d10) rec.d50 := by
  unfold msSampleStep at h
  split at h
  · cases h
  · split at h
    · cases h
    · injection h with h
      subst h
      rfl

/-- C2: when no span column is resolved, every produced record's span equals
    `(d90 - d10) / d50` computed from that record's own d10/d50/d90 — exact
    rational equality, hence within any tolerance — both for the simple
    parser (first conjunct, end to end) and for the multi-section sample
    extraction (second conjunct); with a span column present and its cell
    non-empty, the span is read from the source instead (third conjunct:
    explicit span 9 where the computed value would be 3/2). -/
theorem c2_span_derivation :
    (∀ (content : String) (recs : List ParticleData),
       parseParticleData content = .success recs →
       mastersizerMarkers content = false →
       particleCols (particleHeader (parseCSV content)) .span = none →
       ∀ rec ∈ recs, rec.span = jsDiv (jsSub rec.d90 rec.d10) rec.d50) ∧
    (∀ (dataRows : List (List String)) (a b c : Nat) (ai : Option Nat)
       (entry : String × String) (rec : ParticleData),
       msSampleStep dataRows a b c none ai entry = some rec →
       rec.span = jsDiv (jsSub rec.d90 rec.d10) rec.d50) ∧
    (parseParticleData spanSample = .success [spanSampleRec] ∧
      spanSampleRec.span = some 9 ∧
      jsDiv (jsSub spanSampleRec.d90 spanSampleRec.d10) spanSampleRec.d50 ≠ some 9) := by
  refine ⟨?_, fun dataRows a b c ai entry rec h =>
      msSample_span_computed dataRows a b c ai entry rec h, ?_⟩
  · intro content recs hsucc hms hspan rec hrec
    unfold parseParticleData at hsucc
    simp only [hms, Bool.false_eq_true, if_false] at hsucc
    split at hsucc
    · cases hsucc
    · split at hsucc
      · cases hsucc
      · rename_i hloop
        split at hsucc
        · cases hsucc
        · split at hsucc
          · cases hsucc
          · injection hsucc with hdata
            subst hdata
            rename_i data hrowLoop hlen
            obtain ⟨j, r, hjr⟩ := rowLoop_mem _ _ _ _ hrowLoop rec hrec
            exact particleRow_span_computed _ hspan j r rec hjr
  · refine ⟨by with_unfolding_all decide, by with_unfolding_all decide,
      by with_unfolding_all decide⟩

/-- C2 witness: the simple-parser conjunct applied at a concrete span-less
    file. -/
theorem c2_span_derivation_witness :
    noSpanRec.span = jsDiv (jsSub noSpanRec.d90 noSpanRec.d10) noSpanRec.d50 :=
  c2_span_derivation.1 noSpanSample [noSpanRec]
    (by with_unfolding_all decide)
    (by with_unfolding_all decide)
    (by with_unfolding_all decide)
    noSpanRec (by simp)

/-! ## Claim C3: header alias resolution -/

/-- C3: (i) alias symmetry — for every canonical field and every alias in
    its `columnMappings` list, a header consisting solely of that alias (in
    any case, normalising as the parser does) resolves the field to that
    column already by exact match; (ii) when one of the required fields
    batch/d10/d50/d90 resolves to no column, `parseParticleData` returns an
    immediate file-level Failure — no row-level line number, no raw row —
    whose message names the first missing field and echoes the full
    normalised header. -/
theorem c3_header_resolution :
    (∀ (f : PField) (a : String), a ∈ particleAliases f → ∀ s : String,
       jsTrim (jsLower s) = a → particleCols (particleHeader [[s]]) f = some 0) ∧
    (∀ (content : String) (f : PField),
       mastersizerMarkers content = false →
       2 ≤ (parseCSV content).length →
       firstMissingRequired (particleHeader (parseCSV content)) = some f →
       (f = .batch ∨ f = .d10 ∨ f = .d50 ∨ f = .d90) ∧
       parseParticleData content = .failure
         (errorFrom (msgRequiredColumn f (particleHeader (parseCSV content))))) := by
  constructor
  · intro f a ha s hs
    have hh : particleHeader [[s]] = [a] := by
      simp [particleHeader, hs]
    rw [hh]
    exact resolveColumn_self _ a ha
  · intro content f hms hlen hmiss
    constructor
    · unfold firstMissingRequired at hmiss
      split at hmiss
      · injection hmiss with h; subst h; left; rfl
      · split at hmiss
        · injection hmiss with h; subst h; right; left; rfl
        · split at hmiss
          · injection hmiss with h; subst h; right; right; left; rfl
          · split at hmiss
            · injection hmiss with h; subst h; right; right; right; rfl
            · cases hmiss
    · unfold parseParticleData
      simp only [hms, Bool.false_eq_true, if_false]
      split
      · rename_i hlt
        omega
      · rw [hmiss]

/-- C3 witness: the alias-symmetry part at alias `median` of field d50, and
    the missing-required part at a header lacking any d50 alias. -/
theorem c3_header_resolution_witness :
    particleCols (particleHeader [["MEDIAN"]]) .d50 = some 0 ∧
    parseParticleData "batch,d10,d90\n1,2,3" = .failure
      (errorFrom (msgRequiredColumn .d50 (particleHeader (parseCSV "batch,d10,d90\n1,2,3")))) := by
  constructor
  · exact c3_header_resolution.1 .d50 "median" (by decide) "MEDIAN"
      (by with_unfolding_all decide)
  · exact (c3_header_resolution.2 "batch,d10,d90\n1,2,3" .d50
      (by with_unfolding_all decide) (by with_unfolding_all decide)
      (by with_unfolding_all decide)).2

/-! ## Claim C4: label micro-grammar -/

/-- C4 counterexample: on the label `"A,,B"` the code consumes a single
    separator character and `trim` strips only whitespace, so the
    decomposition keeps the second comma (`intermediateForm = ",B"`), while
    the claim's split-at-the-first-run reading yields `"B"`. -/
theorem c4_split_counterexample :
    (decomposeLabel "A,,B").intermediateForm = ",B" ∧
    claimSplitAtFirstRun "A,,B" = ("A", "B") ∧
    (",B" : String) ≠ "B" := by
  with_unfolding_all decide

/-- All elements satisfy the predicate: `takeWhile` is the identity. -/
theorem takeWhile_all (q : Char → Bool) :
    ∀ l : List Char, (∀ x ∈ l, q x = true) → l.takeWhile q = l := by
  intro l
  induction l with
  | nil => intro _; rfl
  | cons a t ih =>
    intro h
    rw [List.takeWhile_cons, if_pos (by simp [h a (by simp)])]
    rw [ih (fun x hx => h x (by simp [hx]))]

/-- C4 (amended): step (2) of the label grammar is the regex
    `/([^, ]+)[, ]?(.*)/`: any leading separators are skipped, the first
    maximal run of non-comma/space characters becomes the trial, at most ONE
    following comma-or-space is consumed, and the remainder trimmed of
    whitespace is the intermediate form (further commas survive); a label
    with no non-separator character is returned whole with an empty
    remainder.  Steps (1) and (3) and the spec's round-trip example hold as
    claimed (last conjunct, via the composed pipeline). -/
theorem c4_label_grammar_amended :
    (∀ (pre run : List Char) (c : Char) (rest : List Char),
       (∀ x ∈ pre, trialSep x = true) → run ≠ [] →
       (∀ x ∈ run, trialSep x = false) → trialSep c = true →
       (∀ x ∈ rest, jsDotChar x = true) →
       extractTrial (String.mk (pre ++ run ++ c :: rest)) =
         (String.mk run, jsTrim (String.mk rest))) ∧
    (∀ (pre run : List Char),
       (∀ x ∈ pre, trialSep x = true) → run ≠ [] →
       (∀ x ∈ run, trialSep x = false) →
       extractTrial (String.mk (pre ++ run)) = (String.mk run, "")) ∧
    (∀ s : String, (∀ x ∈ s.toList, trialSep x = true) → extractTrial s = (s, "")) ∧
    decomposeLabel "M1;ABC12-3D45, extra info" =
      ⟨some "M1", "ABC12-3D45", "extra info", "ABC12-3D45"⟩ := by
  refine ⟨?_, ?_, ?_, by with_unfolding_all decide⟩
  · intro pre run c rest hpre hrun hns hc hrest
    cases run with
    | nil => exact absurd rfl hrun
    | cons r0 rt =>
      have hsplit : ((r0 :: rt) ++ c :: rest : List Char).dropWhile trialSep =
          r0 :: (rt ++ c :: rest) := by
        rw [List.cons_append, List.dropWhile_cons,
          if_neg (by simp [hns r0 (by simp)])]
      unfold extractTrial
      have htl : (String.mk (pre ++ (r0 :: rt) ++ c :: rest)).toList =
          pre ++ ((r0 :: rt) ++ c :: rest) := by simp
      rw [htl, dropWhile_all_append trialSep pre _ hpre, hsplit]
      have htw : (r0 :: (rt ++ c :: rest)).takeWhile (fun x => !trialSep x) =
          r0 :: rt := by
        have := takeWhile_all_append (fun x => !trialSep x) (r0 :: rt) c rest
          (fun x hx => by simp [hns x hx]) (by simp [hc])
        simpa using this
      simp only [htw]
      have hdrop : (r0 :: (rt ++ c :: rest)).drop (r0 :: rt).length = c :: rest := by
        rw [show r0 :: (rt ++ c :: rest) = (r0 :: rt) ++ c :: rest from rfl]
        exact List.drop_left (r0 :: rt) (c :: rest)
      rw [hdrop]
      simp only [takeWhile_all jsDotChar rest hrest]
  · intro pre run hpre hrun hns
    cases run with
    | nil => exact absurd rfl hrun
    | cons r0 rt =>
      unfold extractTrial
      have htl : (String.mk (pre ++ r0 :: rt)).toList = pre ++ r0 :: rt := by simp
      rw [htl, dropWhile_all_append trialSep pre _ hpre]
      rw [List.dropWhile_cons, if_neg (by simp [hns r0 (by simp)])]
      have htw : (r0 :: rt).takeWhile (fun x => !trialSep x) = r0 :: rt :=
        takeWhile_all _ _ (fun x hx => by simp [hns x hx])
      simp only [htw, List.drop_length]
      rfl
  · intro s hs
    unfold extractTrial
    have hdw : s.toList.dropWhile trialSep = [] := by
      have := dropWhile_all_append trialSep s.toList [] hs
      simpa using this
    rw [hdw]

/-- C4 witness: the amended characterisation at a concrete label. -/
theorem c4_label_grammar_amended_witness :
    extractTrial (String.mk ([','] ++ ['A', 'B'] ++ ' ' :: ['C'])) =
      (String.mk ['A', 'B'], jsTrim (String.mk ['C'])) :=
  c4_label_grammar_amended.1 [','] ['A', 'B'] ' ' ['C']
    (by decide) (by decide) (by decide) (by decide) (by decide)

/-! ## Claim C5: minimum vessel count -/

/-- C5 counterexample: a dissolution header with zero vessel-named columns
    has fewer than 6 of them, yet the failure cites the zero-vessel message,
    not "Expected 6 vessel columns, but found 0". -/
theorem c5_zero_vessels_counterexample :
    parseDissolutionData "Time Point\n1" = .failure (errorFrom msgNoVessel) ∧
    (vesselIndicesOf ((parseCSV "Time Point\n1").headD [])).length = 0 ∧
    msgNoVessel ≠ "Expected 6 vessel columns, but found 0" := by
  with_unfolding_all decide

/-- A decoded dissolution row carries exactly one value per vessel column. -/
theorem dissRow_vessels_length (header : List String) (tIdx : Nat)
    (vIdxs : List Nat) (i : Nat) (row : List String) (rec : DissolutionData)
    (h : dissRowDecode header tIdx vIdxs i row = some (.ok rec)) :
    rec.vessels.length = vIdxs.length := by
  unfold dissRowDecode at h
  split at h
  · cases h
  · injection h with h
    split at h
    · cases h
    · split at h
      · cases h
      · split at h
        · cases h
        · rename_i vessels hv
          injection h with h
          subst h
          exact dissVessels_length header i row vIdxs vessels hv

/-- C5 (amended): a header with a time column and between one and five
    vessel-named columns makes the parse fail citing "Expected 6 vessel
    columns, but found N" (a header with zero vessel-named columns produces
    the different zero-vessel message — see the counterexample); and every
    record of a successful dissolution parse has at least 6 vessel values. -/
theorem c5_vessel_minimum_amended :
    (∀ (content : String) (tIdx : Nat),
       ((parseCSV content).headD []).findIdx?
         (fun col => jsIncludes (jsLower col) "time") = some tIdx →
       1 ≤ (vesselIndicesOf ((parseCSV content).headD [])).length →
       (vesselIndicesOf ((parseCSV content).headD [])).length < 6 →
       parseDissolutionData content = .failure (errorFrom
         ("Expected 6 vessel columns, but found " ++
           toString (vesselIndicesOf ((parseCSV content).headD [])).length))) ∧
    (∀ (content : String) (recs : List DissolutionData),
       parseDissolutionData content = .success recs →
       ∀ rec ∈ recs, 6 ≤ rec.vessels.length) := by
  constructor
  · intro content tIdx htime h1 h6
    simp only [parseDissolutionData, parseDissolutionFromRows, htime]
    rw [if_neg (by omega)]
    rw [if_pos h6]
  · intro content recs hsucc rec hrec
    simp only [parseDissolutionData, parseDissolutionFromRows] at hsucc
    split at hsucc
    · cases hsucc
    · split at hsucc
      · cases hsucc
      · split at hsucc
        · cases hsucc
        · rename_i h6
          split at hsucc
          · cases hsucc
          · injection hsucc with hdata
            subst hdata
            rename_i data hloop
            obtain ⟨j, r, hjr⟩ := rowLoop_mem _ _ _ _ hloop rec hrec
            have hlen := dissRow_vessels_length _ _ _ _ _ _ hjr
            omega

/-- C5 witness: the amended failure at a five-vessel header. -/
theorem c5_vessel_minimum_amended_witness :
    parseDissolutionData
        "Time Point,Vessel 1,Vessel 2,Vessel 3,Vessel 4,Vessel 5\n5,1,2,3,4,5" =
      .failure (errorFrom "Expected 6 vessel columns, but found 5") := by
  have h := c5_vessel_minimum_amended.1
    "Time Point,Vessel 1,Vessel 2,Vessel 3,Vessel 4,Vessel 5\n5,1,2,3,4,5" 0
    (by with_unfolding_all decide) (by with_unfolding_all decide)
    (by with_unfolding_all decide)
  exact h

/-! ## Claim C6: numeric cell decoding -/

/-- C6 counterexample: the cell `5%0` decodes to 50 — the `%` is removed at
    its *first* occurrence — whereas the claim's trailing-only strip would
    decode it to 5. -/
theorem c6_percent_counterexample :
    parseParticleData c6Sample = .success [c6Rec] ∧
    c6Rec.d10 = some 50 ∧
    claimNumericDecode "5%0" = some 5 ∧
    (some (50 : ℚ) : JSNum) ≠ some 5 := by
  with_unfolding_all decide

/-- C6 (amended): numeric decoding removes the first `%` occurrence
    (wherever it is) and replaces the first `,` by `.`, then parses as
    float; a NaN on a required field raises a row-positioned error with the
    row's 1-based index and raw joined row, while an optional field never
    raises — a NaN there simply leaves the field absent. -/
theorem c6_numeric_decode_amended :
    (∀ (cols : PField → Option Nat) (row : List String) (i : Nat)
       (f : PField) (idx : Nat),
       cols f = some idx → idx < row.length → cellAt row idx ≠ "" →
       jsParseFloat (jsReplaceFirst (jsReplaceFirst (cellAt row idx) "%" "") "," ".") = none →
       parseNumericField cols row i f true = .error
         ⟨"Invalid " ++ f.jsName ++ " value",
          "Row " ++ toString i ++ " has non-numeric " ++ f.jsName ++ ": " ++ cellAt row idx,
          some i, some (jsJoin "," row)⟩) ∧
    (∀ (cols : PField → Option Nat) (row : List String) (i : Nat) (f : PField),
       ∃ o, parseNumericField cols row i f false = .ok o) ∧
    (∀ (cols : PField → Option Nat) (row : List String) (i : Nat)
       (f : PField) (idx : Nat),
       cols f = some idx → idx < row.length →
       jsParseFloat (jsReplaceFirst (jsReplaceFirst (cellAt row idx) "%" "") "," ".") = none →
       optNumericField cols row i f = none) ∧
    (jsReplaceFirst "5%0" "%" "" = "50" ∧ jsParseFloat "50" = some 50) := by
  refine ⟨?_, ?_, ?_, by with_unfolding_all decide⟩
  · intro cols row i f idx hc hlt hne hnan
    have hlen : ¬ row.length ≤ idx := by omega
    simp only [parseNumericField, hc, Bool.and_true]
    rw [if_neg hlen, if_neg (by simp [hne]), hnan]
    simp
  · intro cols row i f
    rcases hc : cols f with _ | idx
    · exact ⟨none, by simp [parseNumericField, hc]⟩
    · by_cases hlen : row.length ≤ idx
      · exact ⟨none, by simp [parseNumericField, hc, hlen]⟩
      · rcases hpf : jsParseFloat
            (jsReplaceFirst (jsReplaceFirst (cellAt row idx) "%" "") "," ".") with _ | v
        · exact ⟨none, by simp [parseNumericField, hc, hlen, hpf]⟩
        · exact ⟨some v, by simp [parseNumericField, hc, hlen, hpf]⟩
  · intro cols row i f idx hc hlt hnan
    have hlen : ¬ row.length ≤ idx := by omega
    simp [optNumericField, parseNumericField, hc, hlen, hnan]

/-- C6 witness: the required-NaN rule at a concrete cell. -/
theorem c6_numeric_decode_amended_witness :
    parseNumericField (fun _ => some 0) ["x"] 3 .d10 true = .error
      ⟨"Invalid d10 value", "Row 3 has non-numeric d10: x", some 3, some "x"⟩ := by
  have h := c6_numeric_decode_amended.1 (fun _ => some 0) ["x"] 3 .d10 0 rfl
    (by decide) (by with_unfolding_all decide) (by with_unfolding_all decide)
  exact h

/-! ## Claim C7: blank-line scan of the multi-section extractor -/

/-- C7 counterexample: a line holding a single space is blank for the
    claim's "empty after trimming" test but not for `parseCAMFile`, whose
    test is `!line || !columns[0]` without trimming: on an input whose only
    candidate blank lines are single spaces, the claim counts two blank
    lines, yet the parse fails reporting that two distinct blank rows could
    not be located. -/
theorem c7_blank_counterexample :
    camIsBlank " " = false ∧ claimC7Blank " " = true ∧
    parseCAMFile c7Sample = .failure ⟨"Invalid file format",
      "Could not locate two distinct blank rows in the file. Check file format.",
      none, none⟩ ∧
    ((camLines c7Sample).filter claimC7Blank).length = 2 := by
  with_unfolding_all decide

/-- C7 (amended): `parseCAMFile` treats a line as blank iff it is the empty
    string or its first tab-delimited cell is empty (no trimming); its scan
    returns exactly the first two 1-based blank line numbers, stopping at
    the second, and when fewer than two such lines exist the parse returns
    the file-level Failure reporting that two distinct blank rows could not
    be located. -/
theorem c7_blank_scan_amended :
    (∀ content : String,
       firstTwoIdx camIsBlank 1 (camLines content) =
         (match blankPositions camIsBlank 1 (camLines content) with
          | a :: b :: _ => some (a, b)
          | _ => none)) ∧
    (∀ content : String,
       (blankPositions camIsBlank 1 (camLines content)).length < 2 →
       parseCAMFile content = .failure ⟨"Invalid file format",
         "Could not locate two distinct blank rows in the file. Check file format.",
         none, none⟩) := by
  constructor
  · intro content
    exact firstTwoIdx_eq_positions camIsBlank (camLines content) 1
  · intro content hlt
    simp only [parseCAMFile]
    rw [firstTwoIdx_eq_positions]
    rcases hbp : blankPositions camIsBlank 1 (camLines content) with _ | ⟨a, _ | ⟨b, rest⟩⟩
    · rfl
    · rfl
    · rw [hbp] at hlt
      simp at hlt
      omega

/-- C7 witness: the amended failure at an input with no blank line. -/
theorem c7_blank_scan_amended_witness :
    parseCAMFile "a\tb" = .failure ⟨"Invalid file format",
      "Could not locate two distinct blank rows in the file. Check file format.",
      none, none⟩ :=
  c7_blank_scan_amended.2 "a\tb" (by with_unfolding_all decide)

/-! ## Claim C8: measurement-block cap -/

set_option maxRecDepth 100000 in
/-- C8 counterexample: `parseMastersizerData` reads its whole measurement
    region with no 100-row cap.  In `c8Big` the only matching sample row is
    data row 101 of the measurement table (beyond the claimed cap), yet it
    alone produces the parsed record: truncating the input by just that row
    (keeping the first 100 data rows intact) flips the result to a
    no-valid-data Failure, so rows beyond the 100th do contribute. -/
theorem c8_no_cap_counterexample :
    parseMastersizerData c8Big = .success [msPlainRec "LBL1"] ∧
    parseMastersizerData c8BigTrunc =
      .failure (errorFrom "No valid particle size data found in Mastersizer file") ∧
    (jsSplit c8Big '\n').length = 108 ∧
    jsSplit c8BigTrunc '\n' = (jsSplit c8Big '\n').take 107 := by
  with_unfolding_all decide

/-- C8 (amended): only `parseCAMFile`'s measurement block (`table3`) is
    bounded: for every input and every blank-row position it holds at most
    100 rows.  (Its reading also starts three — not two — lines after the
    second blank line, and `parseMastersizerData` applies no cap at all; see
    the counterexample.) -/
theorem c8_cam_cap_amended (lines : List String) (b2 : Nat) :
    (camTable3 lines b2).length ≤ 100 := by
  unfold camTable3
  rw [List.length_map]
  refine le_trans (List.length_filter_le _ _) ?_
  rw [List.length_map]
  exact List.length_take_le 100 _

/-- C8 witness: the cap at a concrete input. -/
theorem c8_cam_cap_amended_witness : (camTable3 ["a"] 0).length ≤ 100 :=
  c8_cam_cap_amended ["a"] 0

/-! ## Claim C10: the detected delimiter is never used for tokenisation -/

/-- C10: the simple parsers split rows on the comma only.  (i) Whenever no
    line of the input contains a comma, every row `parseCSV` produces is a
    single cell, whatever `detectDelimiter` says; (ii) on a semicolon-
    delimited dissolution table the detector picks `";"`, yet the parse
    fails (the whole header is one cell, counted as a single vessel
    column), while the same table tokenised with the detected delimiter
    would succeed. -/
theorem c10_comma_only_tokenization :
    (∀ content : String, (∀ l ∈ jsSplit content '\n', l.toList.count ',' = 0) →
       ∀ row ∈ parseCSV content, row.length = 1) ∧
    detectDelimiter c10Semi = ";" ∧
    parseDissolutionData c10Semi =
      .failure (errorFrom "Expected 6 vessel columns, but found 1") ∧
    parseDissolutionFromRows (parseCSVWith ';' c10Semi) =
      .success [⟨5, [1, 2, 3, 4, 5, 6], some (7 / 2)⟩] := by
  refine ⟨?_, by with_unfolding_all decide, by with_unfolding_all decide,
    by with_unfolding_all decide⟩
  intro content hnc row hrow
  unfold parseCSV at hrow
  rcases List.mem_map.mp hrow with ⟨l, hl, rfl⟩
  rw [List.length_map]
  unfold jsSplit
  rw [List.length_map]
  rw [splitCharAux_no_sep ',' l.toList []
    (fun c hc => by
      intro he
      subst he
      have hpos : 0 < l.toList.count ',' := List.count_pos_iff.mpr hc
      have := hnc l hl
      omega)]
  rfl

/-- C10 witness: the single-cell rule applied at a semicolon row. -/
theorem c10_comma_only_tokenization_witness :
    (["a;b"] : List String).length = 1 :=
  c10_comma_only_tokenization.1 "a;b\nc" (by with_unfolding_all decide) ["a;b"]
    (by with_unfolding_all decide)

/-! ## Claim C9: detectDelimiter -/

/-- Helper for C9: what `indexOf (Math.max ...)` selects from three counts. -/
theorem delimChoice (n1 n2 n3 : Nat) :
    ([',', ';', '\t'] : List Char).getD
        (List.indexOf ([n1, n2, n3].foldl max 0) [n1, n2, n3]) ',' =
      (if n2 ≤ n1 ∧ n3 ≤ n1 then ',' else if n3 ≤ n2 then ';' else '\t') := by
  have hfold : [n1, n2, n3].foldl max 0 = max (max (max 0 n1) n2) n3 := rfl
  rw [hfold]
  by_cases h1 : n2 ≤ n1 ∧ n3 ≤ n1
  · rw [if_pos h1]
    have hm : max (max (max 0 n1) n2) n3 = n1 := by omega
    rw [hm]
    simp [List.indexOf, List.findIdx, List.findIdx.go]
  · rw [if_neg h1]
    by_cases h2 : n3 ≤ n2
    · rw [if_pos h2]
      have hn1 : n1 < n2 := by omega
      have hm : max (max (max 0 n1) n2) n3 = n2 := by omega
      rw [hm]
      have hne : (n1 == n2) = false := by simp; omega
      simp [List.indexOf, List.findIdx, List.findIdx.go, hne]
    · rw [if_neg h2]
      have hm : max (max (max 0 n1) n2) n3 = n3 := by omega
      rw [hm]
      have hne1 : (n1 == n3) = false := by simp; omega
      have hne2 : (n2 == n3) = false := by simp; omega
      simp [List.indexOf, List.findIdx, List.findIdx.go, hne1, hne2]

/-- C9 counterexample: on the input `";\t"` the semicolon and tab counts tie
    for the maximum (one each, comma zero), yet `detectDelimiter` returns
    `";"` rather than the comma the claim promises on every tie. -/
theorem c9_tie_returns_semicolon :
    detectDelimiter ";\t" = ";" ∧
    (";\t".toList.count ',' = 0 ∧
      ";\t".toList.count ';' = 1 ∧ ";\t".toList.count '\t' = 1) ∧
    (";" : String) ≠ "," := by decide

/-- C9 (amended): `detectDelimiter` counts `','`, `';'` and tab in the first
    line of the content and returns the delimiter with the maximum count; a
    tie is broken in favour of the earliest delimiter in the order comma,
    semicolon, tab (hence comma when all three counts are zero), and for
    every input the result is one of those three delimiters. -/
theorem c9_detectDelimiter_spec (content : String) :
    detectDelimiter content =
      (if ((jsSplit content '\n').headD "").toList.count ';' ≤
            ((jsSplit content '\n').headD "").toList.count ',' ∧
          ((jsSplit content '\n').headD "").toList.count '\t' ≤
            ((jsSplit content '\n').headD "").toList.count ','
       then ","
       else if ((jsSplit content '\n').headD "").toList.count '\t' ≤
            ((jsSplit content '\n').headD "").toList.count ';'
       then ";" else "\t") := by
  show String.singleton _ = _
  rw [show ([',', ';', '\t'].map
      (fun d => (((jsSplit content '\n').headD "").toList.count d))) =
      [((jsSplit content '\n').headD "").toList.count ',',
       ((jsSplit content '\n').headD "").toList.count ';',
       ((jsSplit content '\n').headD "").toList.count '\t'] from rfl]
  rw [delimChoice]
  split_ifs <;> rfl

/-- C9 witness: the amended characterisation applied at a concrete input. -/
theorem c9_detectDelimiter_spec_witness :
    detectDelimiter "a,b;c;d" = ";" := by
  have h := c9_detectDelimiter_spec "a,b;c;d"
  rw [h]; decide

end ParseNUpload
